import Mathlib

/-!
Verification of the Live State & Command Pipeline of the
Multimedia_Systems_Project repository (files `multimedia_drone_working.py`
and `drone_simulation_base.py`).

The Python code is shallowly embedded: pure string parsing becomes Lean
functions on `String`; the vehicle-link side effects (position read,
position write) are made explicit as a trace of `LinkCall`s produced by
each operation, with the link's behaviour (connectivity, read result,
write success, unexpected exception) packaged in a `LinkEnv` record;
machine floats are idealised as rationals (the constants 0.2, 0.3, 1.0
involved in every claim behave identically under this idealisation at the
inputs considered); the lock-protected single-slot frame buffer is
modelled by the sequence of lock-serialised operations applied to it.
-/

/-! ## String utilities (Python `lower`, `strip`, `in`) -/

/-- Test whether the second character list is a leading segment of the
first; building block of Python substring containment. -/
def startsWithChars : List Char → List Char → Bool
  | _, [] => true
  | [], _ :: _ => false
  | a :: as, b :: bs => a == b && startsWithChars as bs

/-- Embedding of Python `needle in hay` on character lists. -/
def hasSubChars : List Char → List Char → Bool
  | [], needle => needle.isEmpty
  | a :: as, needle => startsWithChars (a :: as) needle || hasSubChars as needle

/-- Embedding of Python `needle in hay` for strings. -/
def strHasSub (hay needle : String) : Bool :=
  hasSubChars hay.data needle.data

/-- Embedding of Python `any(phrase in command for phrase in phrases)`. -/
def hasAny (c : String) : List String → Bool
  | [] => false
  | p :: ps => strHasSub c p || hasAny c ps

/-- Remove whitespace from both ends of a character list, as Python
`str.strip()` does. -/
def trimChars (l : List Char) : List Char :=
  ((l.dropWhile Char.isWhitespace).reverse.dropWhile Char.isWhitespace).reverse

/-- Embedding of Python `command.lower().strip()`, the normalisation
applied to every command string before matching
(`multimedia_drone_working.py` line 363). -/
def normText (s : String) : String :=
  String.mk (trimChars (s.data.map Char.toLower))

/-! ## Data model -/

/-- The six directions accepted by `drone_move`
(`drone_simulation_base.py` lines 262-273). -/
inductive Direction where
  | forward
  | backward
  | left
  | right
  | up
  | down
deriving DecidableEq

/-- The direction string passed to `drone_move` by
`execute_voice_command`. -/
def dirStr : Direction → String
  | Direction.forward => "forward"
  | Direction.backward => "backward"
  | Direction.left => "left"
  | Direction.right => "right"
  | Direction.up => "up"
  | Direction.down => "down"

/-- The vehicle action decided by the command matching in
`execute_voice_command` (spec component CommandNormalizer). -/
inductive VehicleAction where
  | takeOff
  | land
  | move (d : Direction)
  | hover
  | unknown (text : String)
deriving DecidableEq

/-- The result dictionary `{"status": ..., "message": ...}` returned by
every command path in the Python code. -/
structure CmdResult where
  status : String
  message : String
deriving DecidableEq

/-- Target position, a triple of coordinates; floats idealised as
rationals. -/
structure Vec3 where
  x : ℚ
  y : ℚ
  z : ℚ
deriving DecidableEq

/-- One observable call on the vehicle link: a position read
(`get_positions`) or a position write (`move_target p`). -/
inductive LinkCall where
  | readPos
  | writePos (p : Vec3)
deriving DecidableEq

/-- The payloads of the position writes in a link-call trace. -/
def writesOf : List LinkCall → List Vec3
  | [] => []
  | LinkCall.readPos :: rest => writesOf rest
  | LinkCall.writePos p :: rest => p :: writesOf rest

/-- Behaviour of the vehicle link during one command execution:
`connected` is `self.connected`; `readTarget` is the target position
returned by `get_positions` (`none` when that call fails or raises,
since `get_positions` catches its own exceptions and returns `None`);
`writeOk` is the boolean returned by `move_target` (which also catches
its own exceptions); `exn` models an unexpected exception raised inside
the drone operation body before any link call, exercising the
`except` branch of each `drone_*` function. -/
structure LinkEnv where
  connected : Bool
  readTarget : Option Vec3
  writeOk : Bool
  exn : Bool

/-! ## Drone operations (`drone_simulation_base.py`) -/

/-- Embedding of `drone_takeoff` (lines 224-234): read the target
position, raise its vertical component to `max(1.0, z)`, write back;
any failure yields an error result. Returns the result dictionary
together with the trace of link calls performed. -/
def drone_takeoff (env : LinkEnv) : CmdResult × List LinkCall :=
  if env.exn then (⟨"error", "Takeoff failed - check CoppeliaSim"⟩, [])
  else
    match env.readTarget with
    | some t =>
        let t2 : Vec3 := ⟨t.x, t.y, max 1 t.z⟩
        if env.writeOk then
          (⟨"success", "Taking off"⟩, [LinkCall.readPos, LinkCall.writePos t2])
        else
          (⟨"error", "Takeoff failed"⟩, [LinkCall.readPos, LinkCall.writePos t2])
    | none => (⟨"error", "Takeoff failed"⟩, [LinkCall.readPos])

/-- Embedding of `drone_land` (lines 236-246): read the target position,
set its vertical component to the fixed value 0.3, write back. -/
def drone_land (env : LinkEnv) : CmdResult × List LinkCall :=
  if env.exn then (⟨"error", "Landing failed - check CoppeliaSim"⟩, [])
  else
    match env.readTarget with
    | some t =>
        let t2 : Vec3 := ⟨t.x, t.y, 3/10⟩
        if env.writeOk then
          (⟨"success", "Landing"⟩, [LinkCall.readPos, LinkCall.writePos t2])
        else
          (⟨"error", "Landing failed"⟩, [LinkCall.readPos, LinkCall.writePos t2])
    | none => (⟨"error", "Landing failed"⟩, [LinkCall.readPos])

/-- The new target position computed by `drone_move` (lines 259-273):
a fixed step of 0.2 along the axis of the direction, with descent
clamped at the altitude floor `max(0.3, z - 0.2)`. -/
def moveVec (d : Direction) (t : Vec3) : Vec3 :=
  match d with
  | Direction.forward => ⟨t.x + 1/5, t.y, t.z⟩
  | Direction.backward => ⟨t.x - 1/5, t.y, t.z⟩
  | Direction.left => ⟨t.x, t.y + 1/5, t.z⟩
  | Direction.right => ⟨t.x, t.y - 1/5, t.z⟩
  | Direction.up => ⟨t.x, t.y, t.z + 1/5⟩
  | Direction.down => ⟨t.x, t.y, max (3/10) (t.z - 1/5)⟩

/-- Embedding of `drone_move` (lines 248-287): read the target, apply
`moveVec`, write back; read failure or write failure yields an error
result. -/
def drone_move (env : LinkEnv) (d : Direction) : CmdResult × List LinkCall :=
  if env.exn then (⟨"error", "Move failed - check CoppeliaSim"⟩, [])
  else
    match env.readTarget with
    | some t =>
        let t2 : Vec3 := moveVec d t
        if env.writeOk then
          (⟨"success", "Moving " ++ dirStr d⟩, [LinkCall.readPos, LinkCall.writePos t2])
        else
          (⟨"error", "Move target failed for " ++ dirStr d⟩,
            [LinkCall.readPos, LinkCall.writePos t2])
    | none =>
        (⟨"error", "Cannot get target position for " ++ dirStr d⟩, [LinkCall.readPos])

/-! ## Command normalisation and execution (`multimedia_drone_working.py`) -/

/-- The matching chain of `execute_voice_command` (lines 363-408), as a
pure mapping from input text to a `VehicleAction`: lowercase and trim,
then test each substring rule in the order the code writes them, first
match winning; when nothing matches, the result is `unknown` carrying
the lowercased, trimmed text (which is what the code interpolates into
its message). -/
def normalizeCommand (s : String) : VehicleAction :=
  let c := normText s
  if hasAny c ["take off", "takeoff", "lift off"] then VehicleAction.takeOff
  else if hasAny c ["land", "landing"] then VehicleAction.land
  else if hasAny c ["forward", "ahead"] then VehicleAction.move Direction.forward
  else if hasAny c ["back", "backward"] then VehicleAction.move Direction.backward
  else if strHasSub c "left" then VehicleAction.move Direction.left
  else if strHasSub c "right" then VehicleAction.move Direction.right
  else if strHasSub c "up" then VehicleAction.move Direction.up
  else if strHasSub c "down" then VehicleAction.move Direction.down
  else if hasAny c ["stop", "halt", "hover"] then VehicleAction.hover
  else if strHasSub c "for" then VehicleAction.move Direction.forward
  else if strHasSub c "lef" then VehicleAction.move Direction.left
  else if strHasSub c "righ" || strHasSub c "write" then VehicleAction.move Direction.right
  else VehicleAction.unknown c

/-- The character `'` (U+0027), used in the unknown-command message. -/
def quoteMark : String := String.singleton (Char.ofNat 39)

/-- The unknown-command error message of `execute_voice_command`
(lines 407-408). -/
def unknownMsg (c : String) : String :=
  "Unknown command: " ++ quoteMark ++ c ++ quoteMark ++
    ". Try: take off, land, forward, back, left, right, up, down, stop"

/-- Embedding of `execute_voice_command` (lines 361-411): normalise the
text, refuse immediately when the link is disconnected (before any
parsing or link call), otherwise dispatch on the first matching rule;
`stop`/`halt`/`hover` succeeds with no link interaction. Returns the
result dictionary and the trace of link calls. -/
def execute_voice_command (env : LinkEnv) (command : String) : CmdResult × List LinkCall :=
  if !env.connected then (⟨"error", "Drone not connected"⟩, [])
  else
    match normalizeCommand command with
    | VehicleAction.takeOff => drone_takeoff env
    | VehicleAction.land => drone_land env
    | VehicleAction.move d => drone_move env d
    | VehicleAction.hover => (⟨"success", "Drone stopped (hovering)"⟩, [])
    | VehicleAction.unknown c => (⟨"error", unknownMsg c⟩, [])

/-! ## Statistics registry and the two command paths -/

/-- The pipeline-relevant fields of `self.stats`. -/
structure Stats where
  totalCommands : Nat
  successfulCommands : Nat
  lastCommand : String
deriving DecidableEq

/-- Embedding of the statistics update performed by the voice loop for
one recognised command (`start_voice_control` lines 150-182): execute
the command, then increment `total_commands`, record `last_command`,
and increment `successful_commands` exactly when the result status is
`success`. -/
def voiceProcess (env : LinkEnv) (stats : Stats) (command : String) : Stats × CmdResult :=
  let result := (execute_voice_command env command).1
  ({ totalCommands := stats.totalCommands + 1
     successfulCommands :=
       if result.status = "success" then stats.successfulCommands + 1
       else stats.successfulCommands
     lastCommand := command }, result)

/-- Embedding of the `manual_command` socket handler (lines 261-271):
lowercase and trim the payload, skip empty text, otherwise call
`execute_voice_command` and emit the result. The handler reads and
writes no statistics, so the `stats` argument is passed through
unchanged; it appears in the signature to make that frame condition
expressible. -/
def handle_manual_command (env : LinkEnv) (stats : Stats) (data : String) :
    Stats × Option CmdResult :=
  let command := normText data
  if command = "" then (stats, none)
  else (stats, some (execute_voice_command env command).1)

/-! ## Single-slot frame buffer (`current_frame` under `frame_lock`) -/

/-- One lock-serialised operation on the frame buffer: a publish by the
capture loop (`self.current_frame = frame` under `frame_lock`,
`video_capture_loop` lines 421-422) or a read by a streaming client
(`generate_video_frames` lines 279-281). The generic type `F` stands
for frame values. -/
inductive BufEvent (F : Type) where
  | publish (f : F)
  | read

/-- Effect of one buffer operation on the held frame: a publish
overwrites it unconditionally, a read leaves it unchanged. -/
def bufStep {F : Type} (s : Option F) (e : BufEvent F) : Option F :=
  match e with
  | BufEvent.publish f => some f
  | BufEvent.read => s

/-- The buffer contents after a lock-serialised trace of operations,
starting from the initial empty slot (`self.current_frame = None`). -/
def bufAfter {F : Type} (tr : List (BufEvent F)) : Option F :=
  tr.foldl bufStep none

/-- The frames published in a trace, in order. -/
def pubs {F : Type} : List (BufEvent F) → List F
  | [] => []
  | BufEvent.publish f :: rest => f :: pubs rest
  | BufEvent.read :: rest => pubs rest

/-- The most recent element of a list of published frames. -/
def lastPub {F : Type} : List F → Option F
  | [] => none
  | f :: rest =>
      match lastPub rest with
      | some g => some g
      | none => some f

/-! ## Capture loop (`video_capture_loop`, lines 413-425) -/

/-- One tick of the capture loop: `streaming` is the value of
`self.streaming` observed at the loop head, `frame` is what
`get_drone_camera_frame()` returns on that tick (`none` when the camera
yields nothing). -/
structure CapTick (F : Type) where
  streaming : Bool
  frame : Option F

/-- Buffer update of one running tick: publish the captured frame when
there is one, otherwise leave the buffer as it is. -/
def capStep {F : Type} (buf : Option F) (t : CapTick F) : Option F :=
  match t.frame with
  | some f => some f
  | none => buf

/-- The buffer contents after the capture loop consumes a list of ticks:
the loop processes ticks while the streaming flag is observed true and
terminates at the first tick observing it false. -/
def capRun {F : Type} : List (CapTick F) → Option F → Option F
  | [], buf => buf
  | t :: rest, buf => if t.streaming then capRun rest (capStep buf t) else buf

/-- The frames the capture loop publishes over a list of ticks. -/
def capPubs {F : Type} : List (CapTick F) → List F
  | [] => []
  | t :: rest =>
      if t.streaming then
        match t.frame with
        | some f => f :: capPubs rest
        | none => capPubs rest
      else []

/-! ## Per-utterance recognition attempts (`start_voice_control`, lines 122-148) -/

/-- Outcome of one transcription attempt: a transcript (already
lowercased and stripped by the code), an `UnknownValueError`
(unrecognised speech), or a `RequestError` (service error). -/
inductive RecogResult where
  | ok (text : String)
  | unrecognized
  | serviceError
deriving DecidableEq

/-- Embedding of the inner attempt loop: `res n` is the outcome of the
(n+1)-st transcription attempt on this utterance; the first argument is
the remaining attempt budget, the second the number of attempts already
made. A transcript ends the loop with a command; an unrecognised result
retries; a service error breaks out of the loop with no command.
Returns the recognised command (if any) and the number of attempts
made. -/
def recogGo (res : Nat → RecogResult) : Nat → Nat → Option String × Nat
  | 0, made => (none, made)
  | Nat.succ n, made =>
      match res made with
      | RecogResult.ok s => (some s, made + 1)
      | RecogResult.unrecognized => recogGo res n (made + 1)
      | RecogResult.serviceError => (none, made + 1)

/-- The whole per-utterance attempt loop with attempt cap
`maxAttempts` (the code sets `max_attempts = 2`). -/
def recogAttempts (res : Nat → RecogResult) (maxAttempts : Nat) : Option String × Nat :=
  recogGo res maxAttempts 0

/-! ## Declarative rule list for the normaliser -/

/-- The substring rules of `execute_voice_command` in the order the code
tests them, each rule being the phrase set together with the action it
selects. -/
def ruleList : List (List String × VehicleAction) :=
  [ (["take off", "takeoff", "lift off"], VehicleAction.takeOff),
    (["land", "landing"], VehicleAction.land),
    (["forward", "ahead"], VehicleAction.move Direction.forward),
    (["back", "backward"], VehicleAction.move Direction.backward),
    (["left"], VehicleAction.move Direction.left),
    (["right"], VehicleAction.move Direction.right),
    (["up"], VehicleAction.move Direction.up),
    (["down"], VehicleAction.move Direction.down),
    (["stop", "halt", "hover"], VehicleAction.hover),
    (["for"], VehicleAction.move Direction.forward),
    (["lef"], VehicleAction.move Direction.left),
    (["righ", "write"], VehicleAction.move Direction.right) ]

/-- First-match evaluation of a rule list on normalised text `c`,
falling back to `dflt` when no rule matches. -/
def firstMatchD (c : String) (dflt : VehicleAction) :
    List (List String × VehicleAction) → VehicleAction
  | [] => dflt
  | (pats, a) :: rest => if hasAny c pats then a else firstMatchD c dflt rest

/-! ## Concrete environments used by witnesses and counterexamples -/

/-- A connected link whose target reads back at z = 0.2 and whose writes
succeed. -/
def envOk : LinkEnv := ⟨true, some ⟨0, 0, 1/5⟩, true, false⟩

/-- A disconnected link. -/
def envDisc : LinkEnv := ⟨false, some ⟨0, 0, 1⟩, true, false⟩

/-- A connected link whose target reads back at z = 0.35. -/
def envDown : LinkEnv := ⟨true, some ⟨0, 0, 7/20⟩, true, false⟩

/-- A connected link whose target reads back at the origin. -/
def envGround : LinkEnv := ⟨true, some ⟨0, 0, 0⟩, true, false⟩

/-- Fresh statistics. -/
def statsZero : Stats := ⟨0, 0, ""⟩

/-- Attempt outcomes whose first attempt is a service error while the
second would transcribe successfully. -/
def resSvcErr : Nat → RecogResult :=
  fun n => if n = 0 then RecogResult.serviceError else RecogResult.ok "land"

/-- Attempt outcomes that are never recognised. -/
def resUnrec : Nat → RecogResult := fun _ => RecogResult.unrecognized

/-! ## Helper lemmas -/

/-- Folding buffer operations from any starting slot yields the last
published frame when there is one, the starting slot otherwise. -/
lemma foldl_bufStep_eq {F : Type} (tr : List (BufEvent F)) :
    ∀ s : Option F, tr.foldl bufStep s =
      match lastPub (pubs tr) with
      | some g => some g
      | none => s := by
  induction tr with
  | nil => intro s; simp [pubs, lastPub]
  | cons e rest ih =>
      intro s
      cases e with
      | read => simpa [pubs, bufStep] using ih s
      | publish f =>
          have h := ih (some f)
          simp only [List.foldl_cons, bufStep, pubs, lastPub]
          cases hl : lastPub (pubs rest) with
          | none => simpa [hl] using h
          | some g => simpa [hl] using h

/-- The last published frame is absent exactly when nothing was
published. -/
lemma lastPub_eq_none_iff {F : Type} (l : List F) : lastPub l = none ↔ l = [] := by
  cases l with
  | nil => simp [lastPub]
  | cons f rest =>
      simp only [lastPub]
      constructor
      · intro h
        cases hl : lastPub rest with
        | none => simp [hl] at h
        | some g => simp [hl] at h
      · intro h
        exact absurd h (List.cons_ne_nil f rest)

/-- The capture loop publishes nothing past the first tick observing the
cleared streaming flag. -/
lemma capPubs_takeWhile {F : Type} :
    ∀ r : List (CapTick F), capPubs r = capPubs (r.takeWhile fun t => t.streaming) := by
  intro r
  induction r with
  | nil => rfl
  | cons t rest ih =>
      by_cases h : t.streaming = true
      · cases hf : t.frame with
        | some f => simp [capPubs, h, hf, List.takeWhile_cons, ih]
        | none => simp [capPubs, h, hf, List.takeWhile_cons, ih]
      · have hb : t.streaming = false := by
          cases hs : t.streaming
          · rfl
          · exact absurd hs h
        simp [capPubs, hb, List.takeWhile_cons]

/-- Unfolding equation for the attempt loop with remaining budget. -/
lemma recogGo_succ (res : Nat → RecogResult) (n made : Nat) :
    recogGo res (n + 1) made =
      match res made with
      | RecogResult.ok s => (some s, made + 1)
      | RecogResult.unrecognized => recogGo res n (made + 1)
      | RecogResult.serviceError => (none, made + 1) := rfl

/-- First-match characterisation of evaluating an ordered rule list:
either some rule matches, and the result is the action of the earliest
matching rule, or no rule matches and the result is the fallback. -/
lemma firstMatchD_spec (c : String) (d : VehicleAction) :
    ∀ rules : List (List String × VehicleAction),
      (∃ pre r post, rules = pre ++ r :: post ∧ hasAny c r.1 = true ∧
        (∀ r2 ∈ pre, hasAny c r2.1 = false) ∧ firstMatchD c d rules = r.2)
      ∨ ((∀ r2 ∈ rules, hasAny c r2.1 = false) ∧ firstMatchD c d rules = d) := by
  intro rules
  induction rules with
  | nil => exact Or.inr ⟨by intro r2 h; exact absurd h (List.not_mem_nil r2), rfl⟩
  | cons hd rest ih =>
      by_cases h : hasAny c hd.1 = true
      · refine Or.inl ⟨[], hd, rest, by simp, h, by intro r2 hr2; simp at hr2, ?_⟩
        simp [firstMatchD, h]
      · have hf : hasAny c hd.1 = false := by
          cases hx : hasAny c hd.1
          · rfl
          · exact absurd hx h
        cases ih with
        | inl hcase =>
            obtain ⟨pre, r, post, heq, hr, hpre, hval⟩ := hcase
            refine Or.inl ⟨hd :: pre, r, post, by rw [heq]; rfl, hr, ?_, ?_⟩
            · intro r2 hr2
              rcases List.mem_cons.mp hr2 with h1 | h2
              · rw [h1]; exact hf
              · exact hpre r2 h2
            · simp [firstMatchD, hf, hval]
        | inr hcase =>
            refine Or.inr ⟨?_, ?_⟩
            · intro r2 hr2
              rcases List.mem_cons.mp hr2 with h1 | h2
              · rw [h1]; exact hf
              · exact hcase.1 r2 h2
            · simp [firstMatchD, hf, hcase.2]

/-- The matching chain of `execute_voice_command` computes exactly the
first-match evaluation of the ordered rule list. -/
lemma normalizeCommand_eq_firstMatchD (s : String) :
    normalizeCommand s =
      firstMatchD (normText s) (VehicleAction.unknown (normText s)) ruleList := by
  simp only [normalizeCommand, firstMatchD, ruleList, hasAny, Bool.or_false]

/-- The command word of each direction normalises to the move action of
that direction. -/
lemma normalize_dirStr (d : Direction) :
    normalizeCommand (dirStr d) = VehicleAction.move d := by
  cases d <;> decide

/-! ## Claim theorems -/

/-- C1 (counterexample): the input "hover up" contains the hover-set
phrase "hover", yet the code maps it to `Move(Up)`, not `Hover`,
because the code tests the stop/halt/hover set only after the
directional substring checks. -/
theorem commandNormalizer_hover_after_directions_cex :
    strHasSub (normText "hover up") "hover" = true
    ∧ normalizeCommand "hover up" = VehicleAction.move Direction.up
    ∧ VehicleAction.move Direction.up ≠ VehicleAction.hover := by
  refine ⟨by decide, by decide, by decide⟩

/-- C1 (amended): the command matching of `execute_voice_command` is a
total deterministic first-match evaluation of the ordered rule list
actually written in the code — takeoff set, land set, forward/ahead,
back/backward, left, right, up, down, then stop/halt/hover, then the
fuzzy fallbacks "for", "lef", "righ"/"write" — applied to the
lowercased, trimmed input; when no rule matches, the result is
`unknown` carrying the lowercased, trimmed text. -/
theorem commandNormalizer_first_match :
    ∀ s : String,
      (∃ pre r post, ruleList = pre ++ r :: post
        ∧ hasAny (normText s) r.1 = true
        ∧ (∀ r2 ∈ pre, hasAny (normText s) r2.1 = false)
        ∧ normalizeCommand s = r.2)
      ∨ ((∀ r2 ∈ ruleList, hasAny (normText s) r2.1 = false)
        ∧ normalizeCommand s = VehicleAction.unknown (normText s)) := by
  intro s
  have h := firstMatchD_spec (normText s) (VehicleAction.unknown (normText s)) ruleList
  rw [normalizeCommand_eq_firstMatchD]
  exact h

/-- C1 (witness): instantiation of the first-match theorem at the input
"right", which the directional rule claims before the fuzzy "righ"
rule can. -/
theorem commandNormalizer_first_match_witness :
    ((∃ pre r post, ruleList = pre ++ r :: post
        ∧ hasAny (normText "right") r.1 = true
        ∧ (∀ r2 ∈ pre, hasAny (normText "right") r2.1 = false)
        ∧ normalizeCommand "right" = r.2)
      ∨ ((∀ r2 ∈ ruleList, hasAny (normText "right") r2.1 = false)
        ∧ normalizeCommand "right" = VehicleAction.unknown (normText "right")))
    ∧ normalizeCommand "right" = VehicleAction.move Direction.right :=
  ⟨commandNormalizer_first_match "right", by decide⟩

/-- C2 (counterexample): a manual command from the web interface reaches
`execute_voice_command` (the handler returns a result), but the handler
leaves `total_commands` untouched, so this call does not increment
`totalCommands` exactly once as claimed. -/
theorem manual_path_no_stats_cex :
    (handle_manual_command envOk statsZero "stop").2.isSome = true
    ∧ (handle_manual_command envOk statsZero "stop").1.totalCommands = 0
    ∧ statsZero.totalCommands + 1 = 1 := by
  refine ⟨by decide, by decide, by decide⟩

/-- C2 (amended): on the voice path, every recognised command increments
`totalCommands` exactly once, increments `successfulCommands` exactly
when the outcome status is "success", and updates the last-command text
unconditionally; the manual/typed client path executes the command but
performs no statistics update at all. -/
theorem submitCommand_stats_voice_path (env : LinkEnv) (stats : Stats) (command : String) :
    (voiceProcess env stats command).1.totalCommands = stats.totalCommands + 1
    ∧ (voiceProcess env stats command).1.lastCommand = command
    ∧ ((voiceProcess env stats command).2.status = "success" →
        (voiceProcess env stats command).1.successfulCommands = stats.successfulCommands + 1)
    ∧ ((voiceProcess env stats command).2.status ≠ "success" →
        (voiceProcess env stats command).1.successfulCommands = stats.successfulCommands)
    ∧ ∀ data : String, (handle_manual_command env stats data).1 = stats := by
  refine ⟨rfl, rfl, ?_, ?_, ?_⟩
  · intro hs
    have hs2 : (execute_voice_command env command).1.status = "success" := hs
    simp [voiceProcess, hs2]
  · intro hs
    have hs2 : ¬ (execute_voice_command env command).1.status = "success" := hs
    simp [voiceProcess, hs2]
  · intro data
    by_cases h : normText data = ""
    · simp [handle_manual_command, h]
    · simp [handle_manual_command, h]

/-- C2 (witness): instantiation of the statistics theorem for the
command "take off" against a connected link, discharging the success
hypothesis concretely. -/
theorem submitCommand_stats_voice_path_witness :
    (voiceProcess envOk statsZero "take off").1.totalCommands = statsZero.totalCommands + 1
    ∧ (voiceProcess envOk statsZero "take off").1.successfulCommands
        = statsZero.successfulCommands + 1
    ∧ (handle_manual_command envOk statsZero "take off").1 = statsZero :=
  ⟨(submitCommand_stats_voice_path envOk statsZero "take off").1,
   (submitCommand_stats_voice_path envOk statsZero "take off").2.2.1 (by decide),
   (submitCommand_stats_voice_path envOk statsZero "take off").2.2.2.2 "take off"⟩

/-- C3 (confirmed): over any lock-serialised trace of publishes and
reads, the buffer slot holds exactly the most recently published frame
(so a read returns that frame), and it is empty exactly when no publish
has happened yet — a read never observes anything but a published
frame. -/
theorem frameBuffer_read_latest {F : Type} :
    ∀ tr : List (BufEvent F),
      bufAfter tr = lastPub (pubs tr)
      ∧ (bufAfter tr = none ↔ pubs tr = []) := by
  intro tr
  have h := foldl_bufStep_eq tr (none : Option F)
  have hmain : bufAfter tr = lastPub (pubs tr) := by
    unfold bufAfter
    rw [h]
    cases hl : lastPub (pubs tr) with
    | none => simp
    | some g => simp
  refine ⟨hmain, ?_⟩
  rw [hmain]
  exact lastPub_eq_none_iff (pubs tr)

/-- C3 (witness): instantiation on a concrete trace with two publishes
and an interleaved read; the slot ends holding the second frame. -/
theorem frameBuffer_read_latest_witness :
    bufAfter [BufEvent.publish 1, BufEvent.read, BufEvent.publish 2]
      = lastPub (pubs [BufEvent.publish 1, BufEvent.read, BufEvent.publish 2])
    ∧ bufAfter [BufEvent.publish 1, BufEvent.read, BufEvent.publish 2] = some 2 :=
  ⟨(frameBuffer_read_latest [BufEvent.publish 1, BufEvent.read, BufEvent.publish 2]).1,
   by decide⟩

/-- C4 (confirmed): with the link reporting disconnected,
`execute_voice_command` returns the not-connected error with an empty
link-call trace (no position read or write), and the voice path's
successful-command counter is unchanged by such a call. -/
theorem execute_disconnected_no_link_calls (env : LinkEnv) (command : String)
    (h : env.connected = false) :
    execute_voice_command env command = (⟨"error", "Drone not connected"⟩, [])
    ∧ ∀ stats : Stats,
        (voiceProcess env stats command).1.successfulCommands = stats.successfulCommands := by
  have hexec : execute_voice_command env command = (⟨"error", "Drone not connected"⟩, []) := by
    simp [execute_voice_command, h]
  refine ⟨hexec, ?_⟩
  intro stats
  simp [voiceProcess, hexec]

/-- C4 (witness): instantiation for `TakeOff` on a disconnected link. -/
theorem execute_disconnected_no_link_calls_witness :
    execute_voice_command envDisc "take off" = (⟨"error", "Drone not connected"⟩, [])
    ∧ (voiceProcess envDisc statsZero "take off").1.successfulCommands
        = statsZero.successfulCommands :=
  ⟨(execute_disconnected_no_link_calls envDisc "take off" rfl).1,
   (execute_disconnected_no_link_calls envDisc "take off" rfl).2 statsZero⟩

/-- C5 (confirmed): on a connected link whose target read succeeds,
`take off` writes back the read position with vertical component
`max(1.0, z)` and `land` writes it back with vertical component fixed
at 0.3 (both preceded by exactly one position read); a successful write
yields success, a failed write yields an error, and a failed read
yields an error for both commands. -/
theorem takeoff_land_clamp (env : LinkEnv) (t : Vec3)
    (hc : env.connected = true) (hx : env.exn = false) (hr : env.readTarget = some t) :
    (execute_voice_command env "take off").2
        = [LinkCall.readPos, LinkCall.writePos ⟨t.x, t.y, max 1 t.z⟩]
    ∧ (execute_voice_command env "land").2
        = [LinkCall.readPos, LinkCall.writePos ⟨t.x, t.y, 3/10⟩]
    ∧ (env.writeOk = true → (execute_voice_command env "take off").1.status = "success"
        ∧ (execute_voice_command env "land").1.status = "success")
    ∧ (env.writeOk = false → (execute_voice_command env "take off").1.status = "error"
        ∧ (execute_voice_command env "land").1.status = "error")
    ∧ (∀ env2 : LinkEnv, env2.connected = true → env2.readTarget = none →
        (execute_voice_command env2 "take off").1.status = "error"
        ∧ (execute_voice_command env2 "land").1.status = "error") := by
  have hnt : normalizeCommand "take off" = VehicleAction.takeOff := by decide
  have hnl : normalizeCommand "land" = VehicleAction.land := by decide
  have hto : execute_voice_command env "take off" = drone_takeoff env := by
    simp [execute_voice_command, hc, hnt]
  have hla : execute_voice_command env "land" = drone_land env := by
    simp [execute_voice_command, hc, hnl]
  refine ⟨?_, ?_, ?_, ?_, ?_⟩
  · rw [hto]; cases hw : env.writeOk <;> simp [drone_takeoff, hx, hr, hw]
  · rw [hla]; cases hw : env.writeOk <;> simp [drone_land, hx, hr, hw]
  · intro hw
    rw [hto, hla]
    exact ⟨by simp [drone_takeoff, hx, hr, hw], by simp [drone_land, hx, hr, hw]⟩
  · intro hw
    rw [hto, hla]
    exact ⟨by simp [drone_takeoff, hx, hr, hw], by simp [drone_land, hx, hr, hw]⟩
  · intro env2 h1 h2
    have hto2 : execute_voice_command env2 "take off" = drone_takeoff env2 := by
      simp [execute_voice_command, h1, hnt]
    have hla2 : execute_voice_command env2 "land" = drone_land env2 := by
      simp [execute_voice_command, h1, hnl]
    rw [hto2, hla2]
    cases hx2 : env2.exn
    · exact ⟨by simp [drone_takeoff, hx2, h2], by simp [drone_land, hx2, h2]⟩
    · exact ⟨by simp [drone_takeoff, hx2], by simp [drone_land, hx2]⟩

/-- C5 (witness): instantiation at a target read back at z = 0.2; the
written vertical component is max 1 0.2 = 1. -/
theorem takeoff_land_clamp_witness :
    (execute_voice_command envOk "take off").2
      = [LinkCall.readPos, LinkCall.writePos ⟨0, 0, max 1 (1/5)⟩]
    ∧ max (1:ℚ) (1/5) = 1 :=
  ⟨(takeoff_land_clamp envOk ⟨0, 0, 1/5⟩ rfl rfl rfl).1, by norm_num⟩

/-- C6 (confirmed): on a connected link whose target read succeeds, each
direction word dispatches to `drone_move`, which performs exactly one
read and one write of the position given by `moveVec` — a 0.2 step
along the axis of the direction; for `down` the new vertical component
is `max(0.3, z - 0.2)`, so a target at z = 0.35 is written back at the
altitude floor 0.3. -/
theorem move_step_clamp (env : LinkEnv) (t : Vec3)
    (hc : env.connected = true) (hx : env.exn = false) (hr : env.readTarget = some t) :
    (∀ d, execute_voice_command env (dirStr d) = drone_move env d)
    ∧ (∀ d, (drone_move env d).2 = [LinkCall.readPos, LinkCall.writePos (moveVec d t)])
    ∧ (∀ d, env.writeOk = true → (drone_move env d).1.status = "success")
    ∧ (moveVec Direction.down t).z = max (3/10) (t.z - 1/5)
    ∧ (t.z = 7/20 → (moveVec Direction.down t).z = 3/10) := by
  refine ⟨?_, ?_, ?_, rfl, ?_⟩
  · intro d
    have hn := normalize_dirStr d
    simp [execute_voice_command, hc, hn]
  · intro d
    cases hw : env.writeOk <;> simp [drone_move, hx, hr, hw]
  · intro d hw
    simp [drone_move, hx, hr, hw]
  · intro hz
    simp only [moveVec, hz]
    rw [show (7:ℚ)/20 - 1/5 = 3/20 by norm_num, max_eq_left (by norm_num : (3:ℚ)/20 ≤ 3/10)]

/-- C6 (witness): instantiation at a target read back at z = 0.35:
moving down writes the position with z clamped to 0.3. -/
theorem move_step_clamp_witness :
    (moveVec Direction.down ⟨0, 0, 7/20⟩).z = 3/10
    ∧ (drone_move envDown Direction.down).2
        = [LinkCall.readPos, LinkCall.writePos (moveVec Direction.down ⟨0, 0, 7/20⟩)] :=
  ⟨(move_step_clamp envDown ⟨0, 0, 7/20⟩ rfl rfl rfl).2.2.2.2 rfl,
   (move_step_clamp envDown ⟨0, 0, 7/20⟩ rfl rfl rfl).2.1 Direction.down⟩

/-- C7 (counterexample): with a service error on the first transcription
attempt and a transcript available on the second, the attempt loop
stops after a single attempt and yields no command — a `RequestError`
breaks out of the loop instead of being retried up to the cap of 2. -/
theorem recognition_service_error_no_retry_cex :
    recogAttempts resSvcErr 2 = (none, 1)
    ∧ resSvcErr 0 = RecogResult.serviceError
    ∧ resSvcErr 1 = RecogResult.ok "land" := by
  refine ⟨by decide, by decide, by decide⟩

/-- C7 (amended): per utterance the loop makes at most 2 transcription
attempts; an `Unrecognized` first attempt is retried (a second attempt
is always made); a successful first attempt ends the loop after one
attempt; but a `ServiceError` aborts the utterance immediately after
one attempt with no retry. -/
theorem recognitionAttempts_cap (res : Nat → RecogResult) :
    (recogAttempts res 2).2 ≤ 2
    ∧ (res 0 = RecogResult.unrecognized → (recogAttempts res 2).2 = 2)
    ∧ (res 0 = RecogResult.serviceError → recogAttempts res 2 = (none, 1))
    ∧ (∀ s, res 0 = RecogResult.ok s → recogAttempts res 2 = (some s, 1)) := by
  have e2 : recogAttempts res 2 =
      match res 0 with
      | RecogResult.ok s => (some s, 1)
      | RecogResult.unrecognized => recogGo res 1 1
      | RecogResult.serviceError => (none, 1) := rfl
  have e1 : recogGo res 1 1 =
      match res 1 with
      | RecogResult.ok s => (some s, 2)
      | RecogResult.unrecognized => (none, 2)
      | RecogResult.serviceError => (none, 2) := rfl
  refine ⟨?_, ?_, ?_, ?_⟩
  · rw [e2]
    cases h0 : res 0 with
    | ok s => simp
    | unrecognized =>
        simp only [e1]
        cases h1 : res 1 <;> simp
    | serviceError => simp
  · intro h0
    rw [e2]
    simp only [h0, e1]
    cases h1 : res 1 <;> simp
  · intro h0
    rw [e2]
    simp [h0]
  · intro s h0
    rw [e2]
    simp [h0]

/-- C7 (witness): with every attempt unrecognised, the loop makes
exactly the capped 2 attempts. -/
theorem recognitionAttempts_cap_witness :
    (recogAttempts resUnrec 2).2 ≤ 2 ∧ (recogAttempts resUnrec 2).2 = 2 :=
  ⟨(recognitionAttempts_cap resUnrec).1, (recognitionAttempts_cap resUnrec).2.1 rfl⟩

/-- C8 (confirmed): in the capture loop, a running tick whose frame
source returns nothing leaves the buffer exactly as the remaining ticks
would find it (the previous frame stays); a tick observing the cleared
streaming flag terminates the loop with the buffer unchanged; and the
frames the loop ever publishes are exactly those of the ticks before
the stop signal is observed — nothing is published afterwards. -/
theorem captureLoop_skip_and_stop {F : Type} :
    ∀ (r : List (CapTick F)) (buf : Option F) (x : Option F),
      capRun (CapTick.mk true none :: r) buf = capRun r buf
      ∧ capRun (CapTick.mk false x :: r) buf = buf
      ∧ capPubs (CapTick.mk false x :: r) = ([] : List F)
      ∧ capPubs r = capPubs (r.takeWhile fun t => t.streaming) := by
  intro r buf x
  exact ⟨rfl, rfl, rfl, capPubs_takeWhile r⟩

/-- C8 (witness): instantiation on concrete ticks: a stop tick followed
by a live frame publishes nothing. -/
theorem captureLoop_skip_and_stop_witness :
    capRun [CapTick.mk true (none : Option Nat)] (some 3) = capRun ([] : List (CapTick Nat)) (some 3)
    ∧ capPubs (CapTick.mk false (some 5) :: [CapTick.mk true (some 7)]) = ([] : List Nat) :=
  ⟨(captureLoop_skip_and_stop [] (some 3) none).1,
   (captureLoop_skip_and_stop [CapTick.mk true (some 7)] (some 3) (some 5)).2.2.1⟩

/-- The unknown-command message is never the empty string. -/
lemma unknownMsg_ne_empty (c : String) : unknownMsg c ≠ "" := by
  intro h
  have h2 := congrArg String.data h
  simp [unknownMsg, String.data_append] at h2

/-- Whatever the link does, `drone_takeoff` returns a result whose
status is success or error, with a non-empty message. -/
lemma drone_takeoff_total (env : LinkEnv) :
    ((drone_takeoff env).1.status = "success" ∨ (drone_takeoff env).1.status = "error")
    ∧ (drone_takeoff env).1.message ≠ "" := by
  cases hx : env.exn <;> cases hr : env.readTarget <;> cases hw : env.writeOk <;>
    simp [drone_takeoff, hx, hr, hw]

/-- Whatever the link does, `drone_land` returns a result whose status
is success or error, with a non-empty message. -/
lemma drone_land_total (env : LinkEnv) :
    ((drone_land env).1.status = "success" ∨ (drone_land env).1.status = "error")
    ∧ (drone_land env).1.message ≠ "" := by
  cases hx : env.exn <;> cases hr : env.readTarget <;> cases hw : env.writeOk <;>
    simp [drone_land, hx, hr, hw]

/-- Whatever the link does, `drone_move` returns a result whose status
is success or error, with a non-empty message. -/
lemma drone_move_total (env : LinkEnv) (d : Direction) :
    ((drone_move env d).1.status = "success" ∨ (drone_move env d).1.status = "error")
    ∧ (drone_move env d).1.message ≠ "" := by
  cases d <;> cases hx : env.exn <;> cases hr : env.readTarget <;> cases hw : env.writeOk <;>
    simp [drone_move, hx, hr, hw, dirStr]

/-- C9 (confirmed): for every input string and every link behaviour —
disconnected, failed reads, failed writes, exceptions raised inside the
operation — `execute_voice_command` returns a result record whose
status is exactly "success" or "error", always accompanied by a
non-empty message; no input makes it anything else. -/
theorem execute_total (env : LinkEnv) (command : String) :
    ((execute_voice_command env command).1.status = "success"
      ∨ (execute_voice_command env command).1.status = "error")
    ∧ (execute_voice_command env command).1.message ≠ "" := by
  cases hc : env.connected with
  | false =>
      have he : execute_voice_command env command = (⟨"error", "Drone not connected"⟩, []) := by
        simp [execute_voice_command, hc]
      rw [he]
      decide
  | true =>
      cases hn : normalizeCommand command with
      | takeOff => simpa [execute_voice_command, hc, hn] using drone_takeoff_total env
      | land => simpa [execute_voice_command, hc, hn] using drone_land_total env
      | move d => simpa [execute_voice_command, hc, hn] using drone_move_total env d
      | hover =>
          simp only [execute_voice_command, hc, hn]
          decide
      | unknown c4 =>
          simp only [execute_voice_command, hc, hn]
          exact ⟨Or.inr rfl, unknownMsg_ne_empty c4⟩

/-- C9 (witness): instantiation at the unmatched input "banana" on a
disconnected link. -/
theorem execute_total_witness :
    ((execute_voice_command envDisc "banana").1.status = "success"
      ∨ (execute_voice_command envDisc "banana").1.status = "error")
    ∧ (execute_voice_command envDisc "banana").1.message ≠ "" :=
  execute_total envDisc "banana"

/-- C10 (counterexample): with the target read back at the origin,
moving down writes back (0, 0, 0.3) — the single changed coordinate
moves by 0.3, which exceeds the 0.2 step, refuting "by at most the 0.2
step". -/
theorem write_frame_step_bound_cex :
    writesOf (drone_move envGround Direction.down).2 = [⟨0, 0, 3/10⟩]
    ∧ (3:ℚ)/10 - 0 = 3/10
    ∧ ¬ ((3:ℚ)/10 ≤ 1/5) := by
  refine ⟨?_, by norm_num, by norm_num⟩
  simp [drone_move, envGround, writesOf, moveVec]
  norm_num

/-- C10 (amended): whenever the target read succeeds, `drone_takeoff`
and `drone_land` write back exactly one position whose x and y equal
those just read (only z changes), and `drone_move` writes back exactly
one position in which at most one coordinate differs from the one read;
for the five directions other than down the total displacement is
exactly the 0.2 step, while for down the written z is
`max(0.3, z - 0.2)` (which can exceed a 0.2 change when z < 0.1). -/
theorem write_frame_conditions (env : LinkEnv) (t : Vec3)
    (hx : env.exn = false) (hr : env.readTarget = some t) :
    writesOf (drone_takeoff env).2 = [⟨t.x, t.y, max 1 t.z⟩]
    ∧ writesOf (drone_land env).2 = [⟨t.x, t.y, 3/10⟩]
    ∧ (∀ d, writesOf (drone_move env d).2 = [moveVec d t])
    ∧ (∀ d, ((moveVec d t).x = t.x ∧ (moveVec d t).y = t.y)
        ∨ ((moveVec d t).x = t.x ∧ (moveVec d t).z = t.z)
        ∨ ((moveVec d t).y = t.y ∧ (moveVec d t).z = t.z))
    ∧ (∀ d, d ≠ Direction.down →
        |(moveVec d t).x - t.x| + |(moveVec d t).y - t.y| + |(moveVec d t).z - t.z| = 1/5)
    ∧ ((moveVec Direction.down t).x = t.x ∧ (moveVec Direction.down t).y = t.y
        ∧ (moveVec Direction.down t).z = max (3/10) (t.z - 1/5)) := by
  refine ⟨?_, ?_, ?_, ?_, ?_, rfl, rfl, rfl⟩
  · cases hw : env.writeOk <;> simp [drone_takeoff, hx, hr, hw, writesOf]
  · cases hw : env.writeOk <;> simp [drone_land, hx, hr, hw, writesOf]
  · intro d
    cases hw : env.writeOk <;> simp [drone_move, hx, hr, hw, writesOf]
  · intro d
    cases d <;> simp [moveVec]
  · intro d hd
    cases d with
    | forward =>
        simp only [moveVec, sub_self, abs_zero, add_zero]
        rw [show t.x + 1/5 - t.x = (1:ℚ)/5 by ring,
          abs_of_nonneg (by norm_num : (0:ℚ) ≤ 1/5)]
    | backward =>
        simp only [moveVec, sub_self, abs_zero, add_zero]
        rw [show t.x - 1/5 - t.x = -((1:ℚ)/5) by ring, abs_neg,
          abs_of_nonneg (by norm_num : (0:ℚ) ≤ 1/5)]
    | left =>
        simp only [moveVec, sub_self, abs_zero, add_zero, zero_add]
        rw [show t.y + 1/5 - t.y = (1:ℚ)/5 by ring,
          abs_of_nonneg (by norm_num : (0:ℚ) ≤ 1/5)]
    | right =>
        simp only [moveVec, sub_self, abs_zero, add_zero, zero_add]
        rw [show t.y - 1/5 - t.y = -((1:ℚ)/5) by ring, abs_neg,
          abs_of_nonneg (by norm_num : (0:ℚ) ≤ 1/5)]
    | up =>
        simp only [moveVec, sub_self, abs_zero, add_zero, zero_add]
        rw [show t.z + 1/5 - t.z = (1:ℚ)/5 by ring,
          abs_of_nonneg (by norm_num : (0:ℚ) ≤ 1/5)]
    | down => exact absurd rfl hd

/-- C10 (witness): instantiation with the target read back at the
origin: landing writes back a position preserving x = 0 and y = 0. -/
theorem write_frame_conditions_witness :
    writesOf (drone_land envGround).2 = [⟨0, 0, 3/10⟩] :=
  (write_frame_conditions envGround ⟨0, 0, 0⟩ rfl rfl).2.1
